import Mathlib

/-!
Verification development for the mitra-bot frontend conversation/session
subsystem.  Every definition below is a shallow embedding of a function in
the repository source:

* `Mitra.escapeHtmlL`, `Mitra.fenceSplit`, `Mitra.inlineCodeL`,
  `Mitra.boldL`, `Mitra.italicL`, `Mitra.lineBreaksL`, `Mitra.formatMessage`
  embed `Chat.formatMessage` (src/frontend/js/chat.js, lines 189-219) and
  `UI.escapeHtml`.
* `Mitra.API.saveConversation`, `Mitra.API.getConversationsRaw`,
  `Mitra.jsonParse` embed the API storage layer (API.saveConversation /
  API.getConversations).
* `Mitra.Chat.addMessage`, `Mitra.Chat.startNewConversation`,
  `Mitra.Chat.updateConversation`, `Mitra.Chat.sendMessage`,
  `Mitra.Chat.pinnedOf`, `Mitra.Chat.recentOf` embed the Chat class.
* `Mitra.Auth.logout`, `Mitra.Auth.loadUser` embed the Auth class.
* `Mitra.API.generateSessionId`, `Mitra.API.sendMessageCall` embed
  API.sendMessage / API.generateSessionId.

Machine strings are modelled as `List Char` where character-level scanning
is needed, with `String` wrappers matching the JS API.
-/

namespace Mitra

/-- The backtick character, written via its code point. -/
def backtickChar : Char := Char.ofNat 96

/-- JavaScript `String.prototype.trim` whitespace (the characters relevant
to this code base: space, tab, newline, carriage return, form feed,
vertical tab, and no-break space). -/
def isJsWs (c : Char) : Bool :=
  c = ' ' || c = '\t' || c = '\n' || c = '\r' ||
  c = Char.ofNat 12 || c = Char.ofNat 11 || c = Char.ofNat 160

/-- `String.prototype.trim` on character lists: drop leading and trailing
whitespace. -/
def jsTrimL (l : List Char) : List Char :=
  ((l.dropWhile isJsWs).reverse.dropWhile isJsWs).reverse

/-- `String.prototype.trim`. -/
def jsTrim (s : String) : String := ⟨jsTrimL s.data⟩

/-- `UI.escapeHtml` (src/unnamed/part_000, lines 629-633): the browser's
`div.textContent = text; return div.innerHTML` serialisation, which escapes
the markup-significant characters ampersand, less-than, greater-than (and
no-break space). -/
def escapeHtmlL : List Char → List Char
  | [] => []
  | c :: r =>
    if c = '&' then "&amp;".data ++ escapeHtmlL r
    else if c = '<' then "&lt;".data ++ escapeHtmlL r
    else if c = '>' then "&gt;".data ++ escapeHtmlL r
    else if c = Char.ofNat 160 then "&nbsp;".data ++ escapeHtmlL r
    else c :: escapeHtmlL r

/-- Word characters, the regex class `\w`. -/
def isWordChar (c : Char) : Bool := c.isAlpha || c.isDigit || c = '_'

/-- Does the list start with three backticks? -/
def isTripleTick (l : List Char) : Bool :=
  match l with
  | a :: b :: c :: _ => a = backtickChar && b = backtickChar && c = backtickChar
  | _ => false

/-- Split at the first occurrence of a triple backtick: returns the content
before the fence and the remainder after it (the non-greedy `([\s\S]*?)`
followed by the closing fence of the code-block regex). -/
def findClose : List Char → Option (List Char × List Char)
  | [] => none
  | c :: r =>
    if isTripleTick (c :: r) then some ([], r.drop 2)
    else (findClose r).map (fun pr => (c :: pr.1, pr.2))

/-- One attempted match of the code-block regex
`/```(\w+)?\n([\s\S]*?)```/` at the head of the list.  Returns the
(optional) language token, the raw inner text and the remainder after the
closing fence. -/
def tryFence (l : List Char) : Option (Option (List Char) × List Char × List Char) :=
  if isTripleTick l then
    match ((l.drop 3).dropWhile isWordChar) with
    | '\n' :: r3 =>
      (findClose r3).map (fun pr =>
        (if ((l.drop 3).takeWhile isWordChar).isEmpty then none
         else some ((l.drop 3).takeWhile isWordChar), pr.1, pr.2))
    | _ => none
  else none

/-- A segment of the formatter's intermediate result: literal text between
code-block matches, or one matched fenced code block (language token and
raw inner text, exactly the two capture groups of the regex). -/
inductive Seg
  | text (s : List Char)
  | block (lang : Option (List Char)) (code : List Char)
deriving DecidableEq, Repr

theorem findClose_length {l a rest} (h : findClose l = some (a, rest)) :
    rest.length < l.length := by
  induction l generalizing a rest with
  | nil => simp [findClose] at h
  | cons c r ih =>
    simp only [findClose] at h
    split at h
    · simp only [Option.some.injEq, Prod.mk.injEq] at h
      obtain ⟨-, h2⟩ := h
      subst h2
      simp only [List.length_cons, List.length_drop]
      omega
    · cases hr : findClose r with
      | none => rw [hr] at h; simp at h
      | some pr =>
        rw [hr] at h
        simp only [Option.map_some', Option.some.injEq] at h
        obtain ⟨p1, p2⟩ := pr
        have := ih hr
        simp only [Prod.mk.injEq] at h
        obtain ⟨-, h2⟩ := h
        subst h2
        simp only [List.length_cons]
        omega

theorem tryFence_length {l lg cd rest} (h : tryFence l = some (lg, cd, rest)) :
    rest.length < l.length := by
  unfold tryFence at h
  split at h
  · rename_i htick
    split at h
    · rename_i r3 hdrop
      cases hfc : findClose r3 with
      | none => rw [hfc] at h; simp at h
      | some pr =>
        rw [hfc] at h
        obtain ⟨p1, p2⟩ := pr
        simp only [Option.map_some', Option.some.injEq, Prod.mk.injEq] at h
        obtain ⟨-, -, h3⟩ := h
        subst h3
        have h1 : p2.length < r3.length := findClose_length hfc
        have h2 : ('\n' :: r3).length ≤ (l.drop 3).length := by
          rw [← hdrop]
          exact (l.drop 3).dropWhile_suffix isWordChar |>.sublist.length_le
        have h3 : l.length ≥ 3 := by
          cases l with
          | nil => simp [isTripleTick] at htick
          | cons a t =>
            cases t with
            | nil => simp [isTripleTick] at htick
            | cons b u =>
              cases u with
              | nil => simp [isTripleTick] at htick
              | cons d v => simp only [List.length_cons]; omega
        simp only [List.length_cons, List.length_drop] at h2 ⊢
        omega
    · simp at h
  · simp at h

/-- The global scan of the code-block regex over the whole input:
`acc` holds the pending literal characters (reversed) since the last match.
Faithful to `String.prototype.replace` with a global regex: after a failed
match attempt the scan advances one character.  The fuel argument only
serves structural termination; `fenceSplit` supplies enough for the fuel
case never to fire. -/
def fenceGoF : Nat → List Char → List Char → List Seg
  | 0, acc, l => [.text (acc.reverse ++ l)]
  | fuel + 1, acc, l =>
    match tryFence l with
    | some (lg, cd, rest) => .text acc.reverse :: .block lg cd :: fenceGoF fuel [] rest
    | none =>
      match l with
      | [] => [.text acc.reverse]
      | c :: r => fenceGoF fuel (c :: acc) r

/-- Splitting an input into code-block matches and the literal text between
them (stage 2 of `Chat.formatMessage`). -/
def fenceSplit (l : List Char) : List Seg := fenceGoF (l.length + 1) [] l

/-- The HTML template substituted for each code-block match in
`Chat.formatMessage` (lines 195-203), with `${lang || 'code'}` and
`${code.trim()}` interpolated.  The template literal's own newlines and
indentation are reproduced exactly. -/
def codeBlockTemplate (lang : Option (List Char)) (code : List Char) : List Char :=
  "\n                <div class=\"code-block\">\n                    <div class=\"code-header\">\n                        <span class=\"code-language\">".data
  ++ (lang.getD "code".data)
  ++ "</span>\n                        <button class=\"code-copy-btn\">Copy</button>\n                    </div>\n                    <div class=\"code-content\"><code>".data
  ++ jsTrimL code
  ++ "</code></div>\n                </div>\n            ".data

/-- Render one segment back to characters. -/
def renderSeg : Seg → List Char
  | .text s => s
  | .block lang code => codeBlockTemplate lang code

/-- Stage 3 of `Chat.formatMessage`: the global replace of the inline-code
regex `/`([^`]+)`/g` by `<code>$1</code>` (fuel only serves structural
termination; the wrapper supplies enough). -/
def inlineCodeF : Nat → List Char → List Char
  | 0, l => l
  | fuel + 1, l =>
    match l with
    | [] => []
    | c :: r =>
      if c = backtickChar then
        let content := r.takeWhile (fun x => x ≠ backtickChar)
        if content.isEmpty then c :: inlineCodeF fuel r
        else
          match r.dropWhile (fun x => x ≠ backtickChar) with
          | [] => c :: content
          | _ :: rest => "<code>".data ++ content ++ "</code>".data ++ inlineCodeF fuel rest
      else c :: inlineCodeF fuel r

/-- Stage 3 wrapper with sufficient fuel. -/
def inlineCodeL (l : List Char) : List Char := inlineCodeF (l.length + 1) l

/-- Stage 4 of `Chat.formatMessage`: the global replace of the bold regex
`/\*\*([^*]+)\*\*/g` by `<strong>$1</strong>`.  A failed attempt advances
the scan by one character, exactly as the regex engine does. -/
def boldF : Nat → List Char → List Char
  | 0, l => l
  | fuel + 1, l =>
    match l with
    | [] => []
    | [c] => [c]
    | c :: c2 :: r2 =>
      if c = '*' && c2 = '*' then
        let content := r2.takeWhile (fun x => x ≠ '*')
        if content.isEmpty then c :: boldF fuel (c2 :: r2)
        else
          match r2.dropWhile (fun x => x ≠ '*') with
          | [] => c :: c2 :: content
          | [t] => c :: c2 :: content ++ [t]
          | t1 :: t2 :: rest =>
            if t2 = '*' then
              "<strong>".data ++ content ++ "</strong>".data ++ boldF fuel rest
            else
              c :: c2 :: content ++ t1 :: boldF fuel (t2 :: rest)
      else c :: boldF fuel (c2 :: r2)

/-- Stage 4 wrapper with sufficient fuel. -/
def boldL (l : List Char) : List Char := boldF (l.length + 1) l

/-- Stage 5 of `Chat.formatMessage`: the global replace of the italic regex
`/\*([^*]+)\*/g` by `<em>$1</em>`. -/
def italicF : Nat → List Char → List Char
  | 0, l => l
  | fuel + 1, l =>
    match l with
    | [] => []
    | c :: r =>
      if c = '*' then
        let content := r.takeWhile (fun x => x ≠ '*')
        if content.isEmpty then c :: italicF fuel r
        else
          match r.dropWhile (fun x => x ≠ '*') with
          | [] => c :: content
          | _ :: rest => "<em>".data ++ content ++ "</em>".data ++ italicF fuel rest
      else c :: italicF fuel r

/-- Stage 5 wrapper with sufficient fuel. -/
def italicL (l : List Char) : List Char := italicF (l.length + 1) l

/-- Stage 6 of `Chat.formatMessage`: `formatted.replace(/\n/g, '<br>')`. -/
def lineBreaksL : List Char → List Char
  | [] => []
  | c :: r => if c = '\n' then "<br>".data ++ lineBreaksL r else c :: lineBreaksL r

/-- `Chat.formatMessage` (src/frontend/js/chat.js, lines 189-219): escape,
replace fenced code blocks by the HTML template, then inline code, bold,
italics, and finally newlines to `<br>`, in exactly the source's order.
Every stage after the code-block substitution operates on the full
substituted text, as the chained `.replace` calls do. -/
def formatMessageL (l : List Char) : List Char :=
  lineBreaksL (italicL (boldL (inlineCodeL
    (((fenceSplit (escapeHtmlL l)).map renderSeg).flatten))))

/-- `Chat.formatMessage` on strings. -/
def formatMessage (s : String) : String := ⟨formatMessageL s.data⟩

/-- A chat message (the objects pushed by `Chat.addMessage`): role, content,
timestamp, and the optional metadata carried on assistant replies. -/
structure MessageM where
  role : String
  content : String
  timestamp : String
  confidence : Option String := none
  sources : Option (List String) := none
deriving DecidableEq, Repr

/-- A stored conversation (the objects built by `Chat.startNewConversation`
and persisted by `API.saveConversation`).  Fields that a conversation
object may lack in JS (`pinned`, `lastMessage`, `session_id`) are modelled
with `false` / `none` for absence, matching their falsy reads. -/
structure Conversation where
  id : String
  title : String
  messages : List MessageM
  created_at : String
  updated_at : String
  starred : Bool
  pinned : Bool := false
  lastMessage : Option String := none
  session_id : Option String := none
deriving DecidableEq, Repr

namespace API

/-- `API.saveConversation` (src/unnamed/part_001, lines 133-145) acting on
the persisted list: `findIndex` by id, replace at that index if found,
otherwise `unshift` to the front. -/
def saveConversation (conversation : Conversation) (conversations : List Conversation) :
    List Conversation :=
  match conversations.findIdx? (fun c => c.id == conversation.id) with
  | some index => conversations.set index conversation
  | none => conversation :: conversations

/-- `API.generateSessionId` (src/unnamed/part_001, lines 154-156):
`session_${Date.now()}_${random-token}`, with the timestamp rendered in
decimal. -/
def digitChar (n : Nat) : Char :=
  match n with
  | 0 => '0' | 1 => '1' | 2 => '2' | 3 => '3' | 4 => '4'
  | 5 => '5' | 6 => '6' | 7 => '7' | 8 => '8' | _ => '9'

/-- Decimal digits of a natural number, most significant first (fuel only
serves structural termination; the wrapper supplies enough). -/
def digitsF : Nat → Nat → List Char
  | 0, n => [digitChar n]
  | fuel + 1, n =>
    if n < 10 then [digitChar n]
    else digitsF fuel (n / 10) ++ [digitChar (n % 10)]

/-- Decimal digits of a natural number, most significant first. -/
def digitsOf (n : Nat) : List Char := digitsF n n

/-- `API.generateSessionId`, with `Date.now()` and the random token as
explicit inputs. -/
def generateSessionId (nowMs : Nat) (rand : String) : String :=
  "session_" ++ ⟨digitsOf nowMs⟩ ++ "_" ++ rand

/-- JavaScript `a || b` for an optional string `a`: `null`/`undefined` and
the empty string are falsy. -/
def jsOrStr (a : Option String) (b : String) : String :=
  match a with
  | some s => if s = "" then b else s
  | none => b

/-- The client-side API state relevant to `API.sendMessage`: the class only
holds the auth token; no session id is ever stored on it. -/
structure ApiState where
  token : Option String
deriving DecidableEq, Repr

/-- The request body built by `API.sendMessage` (src/unnamed/part_001,
lines 85-93). -/
structure ChatRequest where
  endpoint : String
  message : String
  session_id : String
deriving DecidableEq, Repr

/-- `API.sendMessage(message, sessionId = null)`: builds the request with
`session_id: sessionId || this.generateSessionId()` and leaves the client
state untouched. -/
def sendMessageCall (st : ApiState) (message : String) (sessionId : Option String)
    (nowMs : Nat) (rand : String) : ChatRequest × ApiState :=
  ({ endpoint := "/api/chat", message := message,
     session_id := jsOrStr sessionId (generateSessionId nowMs rand) }, st)

end API

namespace Chat

/-- The in-memory Chat state (the fields of the `Chat` class that the
conversation pipeline reads and writes), together with the persisted
conversation list of the API storage layer and observation logs: every
message ever passed to `addMessage`, every toast shown, and the number of
gateway chat calls made. -/
structure State where
  currentConversation : Option Conversation
  sessionId : Option String
  messages : List MessageM
  store : List Conversation
  appendedLog : List MessageM := []
  toasts : List (String × String × String) := []
  gatewayCalls : Nat := 0
deriving DecidableEq, Repr

/-- `Chat.addMessage` (line 153-154): push onto the message buffer (the DOM
rendering is out of scope; the push is also recorded on the observation
log). -/
def addMessage (st : State) (m : MessageM) : State :=
  { st with messages := st.messages ++ [m], appendedLog := st.appendedLog ++ [m] }

/-- `Chat.startNewConversation` (lines 251-262): fresh conversation object,
fresh session id, cleared message buffer.  The fresh ids and timestamp are
explicit inputs. -/
def startNewConversation (st : State) (cid sid nowIso : String) : State :=
  { st with
    currentConversation := some
      { id := cid, title := "New conversation", messages := [],
        created_at := nowIso, updated_at := nowIso, starred := false },
    sessionId := some sid,
    messages := [] }

/-- `Chat.updateConversation` (lines 284-304): create a conversation if
none is active, set the title from the first user message exactly when the
buffer holds two messages, refresh `messages`/`lastMessage`/`updated_at`,
and persist through `API.saveConversation`. -/
def updateConversation (st : State) (userMessage : String) (aiResponse : Option String)
    (cid sid nowIso : String) : State :=
  let st1 := match st.currentConversation with
    | none => startNewConversation st cid sid nowIso
    | some _ => st
  match st1.currentConversation with
  | none => st1
  | some conv =>
    let conv1 :=
      if st1.messages.length = 2 then
        { conv with title :=
            userMessage.take 50 ++ (if userMessage.length > 50 then "..." else "") }
      else conv
    let conv2 := { conv1 with
      messages := st1.messages,
      lastMessage := aiResponse.map (fun r => r.take 100),
      updated_at := nowIso }
    { st1 with
      currentConversation := some conv2,
      store := API.saveConversation conv2 st1.store }

/-- The gateway's reply to a chat call: the parsed success payload, or a
thrown error carrying its message. -/
structure GatewayReply where
  response : Option String
  confidence : Option String := none
  sources : Option (List String) := none
deriving DecidableEq, Repr

/-- `Chat.sendMessage` (lines 99-151): trim the input; a blank message is a
silent no-op; otherwise append the user message, call the gateway once and
either append the assistant reply and update the conversation, or show an
error toast.  The gateway is passed `(message, this.sessionId)`. -/
def sendMessage (st : State) (inputValue : String)
    (gw : String → Option String → Except String GatewayReply)
    (nowIso cid sid : String) : State :=
  let message := jsTrim inputValue
  if message = "" then st
  else
    let st1 := addMessage st
      { role := "user", content := message, timestamp := nowIso }
    let st1 := { st1 with gatewayCalls := st1.gatewayCalls + 1 }
    match gw message st.sessionId with
    | .ok reply =>
      let st2 := match reply.response with
        | some r => addMessage st1
            { role := "ai", content := r, timestamp := nowIso,
              confidence := reply.confidence, sources := reply.sources }
        | none => st1
      updateConversation st2 message reply.response cid sid nowIso
    | .error e =>
      { st1 with toasts := st1.toasts ++
          [("Error", if e = "" then "Failed to send message" else e, "error")] }

/-- `Chat.loadConversationsList` (lines 306-322), the pinned partition:
`conversations.filter(c => c.pinned)`. -/
def pinnedOf (conversations : List Conversation) : List Conversation :=
  conversations.filter (fun c => c.pinned)

/-- `Chat.loadConversationsList`, the recent partition:
`conversations.filter(c => !c.pinned).slice(0, 15)`. -/
def recentOf (conversations : List Conversation) : List Conversation :=
  (conversations.filter (fun c => !c.pinned)).take 15

end Chat

/-- A JSON value, as produced by `JSON.parse`.  Number literals keep their
lexeme; object fields keep insertion order. -/
inductive Json
  | null
  | bool (b : Bool)
  | num (lexeme : List Char)
  | str (s : List Char)
  | arr (elems : List Json)
  | obj (fields : List (List Char × Json))

/-- JSON insignificant whitespace. -/
def isJsonWs (c : Char) : Bool := c = ' ' || c = '\t' || c = '\n' || c = '\r'

/-- The body of a JSON string literal after the opening quote: scan to the
closing quote, passing escape pairs through. -/
def parseStringRest (acc : List Char) : List Char → Except String (List Char × List Char)
  | [] => .error "unterminated string"
  | '"' :: r => .ok (acc.reverse, r)
  | '\\' :: c :: r => parseStringRest (c :: acc) r
  | ['\\'] => .error "unterminated string"
  | c :: r => parseStringRest (c :: acc) r

/-- A JSON number lexeme: optional minus, digits, optional fraction,
optional exponent.  Returns the lexeme and the remainder, or an error on a
malformed number, as `JSON.parse` throws. -/
def parseNumber (l : List Char) : Except String (List Char × List Char) :=
  let (neg, l1) := match l with
    | '-' :: r => (['-'], r)
    | _ => (([] : List Char), l)
  let intPart := l1.takeWhile Char.isDigit
  let l2 := l1.dropWhile Char.isDigit
  if intPart.isEmpty then .error "invalid number" else
  if intPart.head? = some '0' ∧ intPart.length > 1 then .error "invalid number" else
  let (fracPart, l3) := match l2 with
    | '.' :: r =>
      let ds := r.takeWhile Char.isDigit
      ('.' :: ds, r.dropWhile Char.isDigit)
    | _ => (([] : List Char), l2)
  if fracPart = ['.'] then .error "invalid number" else
  let (expPart, l4) := match l3 with
    | c :: r =>
      if c = 'e' || c = 'E' then
        let (sgn, r1) := match r with
          | '+' :: r2 => (['+'], r2)
          | '-' :: r2 => (['-'], r2)
          | _ => (([] : List Char), r)
        let ds := r1.takeWhile Char.isDigit
        (c :: sgn ++ ds, r1.dropWhile Char.isDigit)
      else (([] : List Char), l3)
    | [] => (([] : List Char), l3)
  match expPart with
  | c :: rest => if rest.takeWhile Char.isDigit = [] && (rest = [] || rest = ['+'] || rest = ['-'])
      then .error "invalid number"
      else .ok (neg ++ intPart ++ fracPart ++ c :: rest, l4)
  | [] => .ok (neg ++ intPart ++ fracPart, l4)

mutual

/-- `JSON.parse`, value grammar, with a fuel argument bounding the nesting
depth (always sufficient at the call site below). -/
def parseValue : Nat → List Char → Except String (Json × List Char)
  | 0, _ => .error "out of fuel"
  | _ + 1, [] => .error "unexpected end of input"
  | fuel + 1, c :: r =>
    if c = 'n' then
      match c :: r with
      | 'n' :: 'u' :: 'l' :: 'l' :: rest => .ok (.null, rest)
      | _ => .error "unexpected token"
    else if c = 't' then
      match c :: r with
      | 't' :: 'r' :: 'u' :: 'e' :: rest => .ok (.bool true, rest)
      | _ => .error "unexpected token"
    else if c = 'f' then
      match c :: r with
      | 'f' :: 'a' :: 'l' :: 's' :: 'e' :: rest => .ok (.bool false, rest)
      | _ => .error "unexpected token"
    else if c = '"' then
      match parseStringRest [] r with
      | .ok (s, rest) => .ok (.str s, rest)
      | .error e => .error e
    else if c = '[' then
      match r.dropWhile isJsonWs with
      | ']' :: rest => .ok (.arr [], rest)
      | l1 => parseElems fuel l1 []
    else if c = Char.ofNat 123 then
      match r.dropWhile isJsonWs with
      | c2 :: rest =>
        if c2 = Char.ofNat 125 then .ok (.obj [], rest)
        else parseFields fuel (c2 :: rest) []
      | [] => .error "unterminated object"
    else if c = '-' || c.isDigit then
      match parseNumber (c :: r) with
      | .ok (lex, rest) => .ok (.num lex, rest)
      | .error e => .error e
    else .error "unexpected token"

/-- Array elements after the opening bracket (and after each comma). -/
def parseElems : Nat → List Char → List Json → Except String (Json × List Char)
  | 0, _, _ => .error "out of fuel"
  | fuel + 1, l, acc =>
    match parseValue fuel l with
    | .error e => .error e
    | .ok (v, rest) =>
      match rest.dropWhile isJsonWs with
      | ',' :: rest2 => parseElems fuel (rest2.dropWhile isJsonWs) (v :: acc)
      | ']' :: rest2 => .ok (.arr (v :: acc).reverse, rest2)
      | _ => .error "expected comma or closing bracket"

/-- Object members after the opening brace (and after each comma). -/
def parseFields : Nat → List Char → List (List Char × Json) →
    Except String (Json × List Char)
  | 0, _, _ => .error "out of fuel"
  | fuel + 1, l, acc =>
    match l with
    | '"' :: r =>
      match parseStringRest [] r with
      | .error e => .error e
      | .ok (key, rest) =>
        match rest.dropWhile isJsonWs with
        | ':' :: rest2 =>
          match parseValue fuel (rest2.dropWhile isJsonWs) with
          | .error e => .error e
          | .ok (v, rest3) =>
            match rest3.dropWhile isJsonWs with
            | ',' :: rest4 => parseFields fuel (rest4.dropWhile isJsonWs) ((key, v) :: acc)
            | c :: rest4 =>
              if c = Char.ofNat 125 then .ok (.obj ((key, v) :: acc).reverse, rest4)
              else .error "expected comma or closing brace"
            | [] => .error "unterminated object"
        | _ => .error "expected colon"
    | _ => .error "expected string key"

end

/-- `JSON.parse` on a whole string: a single value surrounded by optional
whitespace; anything else throws. -/
def jsonParse (s : String) : Except String Json :=
  match parseValue (s.length + 1) (s.data.dropWhile isJsonWs) with
  | .error e => .error e
  | .ok (v, rest) =>
    if rest.dropWhile isJsonWs = [] then .ok v
    else .error "unexpected trailing characters"

namespace API

/-- `API.getConversations` (src/unnamed/part_001, lines 128-131):
`stored ? JSON.parse(stored) : []`.  The stored value is the raw string
under the conversations storage key, or `none` when the key is absent. -/
def getConversationsRaw (stored : Option String) : Except String Json :=
  match stored with
  | some s => jsonParse s
  | none => .ok (Json.arr [])

end API

/-- The decoded JWT payload read by `Auth.loadUser`
(src/frontend/js/auth.js, lines 24-30): the fields the code projects out.
`exp` is the expiry in seconds. -/
structure AuthPayload where
  sub : Option String := none
  user_id : Option String := none
  email : Option String := none
  name : Option String := none
  username : Option String := none
  exp : Option Int := none
deriving DecidableEq, Repr

/-- The `this.user` projection built by `Auth.loadUser`. -/
structure AuthUser where
  id : Option String
  email : Option String
  name : Option String
  exp : Option Int
deriving DecidableEq, Repr

/-- JavaScript `a || b` on optional strings (empty string is falsy). -/
def jsOrOpt (a b : Option String) : Option String :=
  match a with
  | some s => if s = "" then b else some s
  | none => b

/-- The Auth module state: the stored token, the in-memory user, and
observation flags for `localStorage.clear()`, the redirect to the auth
page, and whether `updateUI` was invoked. -/
structure AuthState where
  token : Option String
  user : Option AuthUser
  storageCleared : Bool := false
  redirectedToAuth : Bool := false
  uiUpdated : Bool := false
deriving DecidableEq, Repr

namespace Auth

/-- `Auth.logout` (src/frontend/js/auth.js, lines 103-108): remove the
token, null the user, clear local storage, redirect to the auth page. -/
def logout (st : AuthState) : AuthState :=
  { st with
    token := none, user := none, storageCleared := true,
    redirectedToAuth := true }

/-- `Auth.loadUser` (src/frontend/js/auth.js, lines 18-43).  The outcome of
`JSON.parse(atob(token.split('.')[1]))` is an explicit input (`.error` for
a token that fails to decode, which the `catch` turns into `logout`).
After building `this.user`, a truthy `exp` with `Date.now() >= exp * 1000`
forces `logout` and returns before `updateUI`; otherwise `updateUI` runs. -/
def loadUser (st : AuthState) (decoded : Except Unit AuthPayload) (nowMs : Int) :
    AuthState :=
  match st.token with
  | none => st
  | some _ =>
    match decoded with
    | .error _ => logout st
    | .ok payload =>
      let user : AuthUser :=
        { id := jsOrOpt payload.sub payload.user_id,
          email := payload.email,
          name := jsOrOpt payload.name payload.username,
          exp := payload.exp }
      let st1 := { st with user := some user }
      match payload.exp with
      | some e =>
        if e ≠ 0 ∧ nowMs ≥ e * 1000 then logout st1
        else { st1 with uiUpdated := true }
      | none => { st1 with uiUpdated := true }

end Auth

/-! Helper lemmas about the formatter stages. -/

theorem dropWhile_eq_self_of {p : Char → Bool} {l : List Char}
    (h : ∀ c ∈ l, p c = false) : l.dropWhile p = l := by
  cases l with
  | nil => rfl
  | cons c r => simp [List.dropWhile_cons, h c (by simp)]

theorem jsTrimL_eq_self {l : List Char} (h : ∀ c ∈ l, isJsWs c = false) :
    jsTrimL l = l := by
  unfold jsTrimL
  rw [dropWhile_eq_self_of h]
  rw [dropWhile_eq_self_of (fun c hc => h c (List.mem_reverse.mp hc))]
  exact List.reverse_reverse l

theorem escapeHtmlL_eq_self {l : List Char}
    (h : ∀ c ∈ l, c ≠ '&' ∧ c ≠ '<' ∧ c ≠ '>' ∧ c ≠ Char.ofNat 160) :
    escapeHtmlL l = l := by
  induction l with
  | nil => rfl
  | cons c r ih =>
    obtain ⟨h1, h2, h3, h4⟩ := h c (by simp)
    simp only [escapeHtmlL, if_neg h1, if_neg h2, if_neg h3, if_neg h4]
    rw [ih (fun x hx => h x (by simp [hx]))]

theorem isTripleTick_eq_false {l : List Char} (h : ∀ c ∈ l, c ≠ backtickChar) :
    isTripleTick l = false := by
  cases l with
  | nil => rfl
  | cons a t =>
    cases t with
    | nil => rfl
    | cons b u =>
      cases u with
      | nil => rfl
      | cons d v => simp [isTripleTick, h a (by simp)]

theorem tryFence_eq_none {l : List Char} (h : ∀ c ∈ l, c ≠ backtickChar) :
    tryFence l = none := by
  unfold tryFence
  rw [isTripleTick_eq_false h]
  simp

theorem fenceGoF_text {l : List Char} (h : ∀ c ∈ l, c ≠ backtickChar) :
    ∀ (fuel : Nat) (acc : List Char), fenceGoF fuel acc l = [.text (acc.reverse ++ l)] := by
  induction l with
  | nil =>
    intro fuel acc
    cases fuel with
    | zero => rfl
    | succ f => simp [fenceGoF, tryFence, isTripleTick]
  | cons c r ih =>
    intro fuel acc
    cases fuel with
    | zero => rfl
    | succ f =>
      rw [fenceGoF, tryFence_eq_none h]
      rw [ih (fun x hx => h x (by simp [hx])) f (c :: acc)]
      simp

theorem fenceSplit_text {l : List Char} (h : ∀ c ∈ l, c ≠ backtickChar) :
    fenceSplit l = [.text l] := by
  unfold fenceSplit
  rw [fenceGoF_text h]
  simp

theorem inlineCodeF_eq_self {l : List Char} (h : ∀ c ∈ l, c ≠ backtickChar) :
    ∀ fuel, inlineCodeF fuel l = l := by
  induction l with
  | nil => intro fuel; cases fuel <;> rfl
  | cons c r ih =>
    intro fuel
    cases fuel with
    | zero => rfl
    | succ f =>
      rw [inlineCodeF, if_neg (by simpa using h c (by simp))]
      rw [ih (fun x hx => h x (by simp [hx])) f]

theorem boldF_eq_self {l : List Char} (h : ∀ c ∈ l, c ≠ '*') :
    ∀ fuel, boldF fuel l = l := by
  induction l with
  | nil => intro fuel; cases fuel <;> rfl
  | cons c r ih =>
    intro fuel
    cases fuel with
    | zero => rfl
    | succ f =>
      cases r with
      | nil => rfl
      | cons c2 r2 =>
        have hc : c ≠ '*' := h c (by simp)
        rw [boldF, if_neg (by simp [hc])]
        rw [ih (fun x hx => h x (by simp [hx])) f]

theorem italicF_eq_self {l : List Char} (h : ∀ c ∈ l, c ≠ '*') :
    ∀ fuel, italicF fuel l = l := by
  induction l with
  | nil => intro fuel; cases fuel <;> rfl
  | cons c r ih =>
    intro fuel
    cases fuel with
    | zero => rfl
    | succ f =>
      rw [italicF, if_neg (h c (by simp))]
      rw [ih (fun x hx => h x (by simp [hx])) f]

theorem lineBreaksL_eq_self {l : List Char} (h : ∀ c ∈ l, c ≠ '\n') :
    lineBreaksL l = l := by
  induction l with
  | nil => rfl
  | cons c r ih =>
    rw [lineBreaksL, if_neg (h c (by simp))]
    rw [ih (fun x hx => h x (by simp [hx]))]

/-! Fixtures used by witnesses and counterexamples. -/

/-- A pinned stored conversation. -/
def convP : Conversation :=
  { id := "p1", title := "Pinned one", messages := [], created_at := "T0",
    updated_at := "T0", starred := false, pinned := true }

/-- An unpinned stored conversation. -/
def convR : Conversation :=
  { id := "r1", title := "Recent one", messages := [], created_at := "T0",
    updated_at := "T0", starred := false, pinned := false }

end Mitra

open Mitra

/-- C5: for every stored sequence of conversations, the partition computed
when listing consists of the pinned sequence (entries with `pinned` true)
and the recent sequence (entries with `pinned` false, limited to the first
15), both preserving store order (each is a sublist of the store), and no
conversation appears in both partitions. -/
theorem c5_partition (conversations : List Conversation) :
    List.Sublist (Chat.pinnedOf conversations) conversations ∧
    List.Sublist (Chat.recentOf conversations) conversations ∧
    (∀ c ∈ Chat.pinnedOf conversations, c.pinned = true) ∧
    (∀ c ∈ Chat.recentOf conversations, c.pinned = false) ∧
    (Chat.recentOf conversations).length ≤ 15 ∧
    (∀ c ∈ Chat.pinnedOf conversations, c ∉ Chat.recentOf conversations) := by
  refine ⟨List.filter_sublist _, (List.take_sublist _ _).trans (List.filter_sublist _),
    fun c hc => ?_, fun c hc => ?_, ?_, fun c hc hc2 => ?_⟩
  · exact (List.mem_filter.mp hc).2
  · have h2 := (List.mem_filter.mp (List.take_subset _ _ hc)).2
    simpa using h2
  · exact List.length_take_le _ _
  · have h1 : c.pinned = true := (List.mem_filter.mp hc).2
    have h2 := (List.mem_filter.mp (List.take_subset _ _ hc2)).2
    simp [h1] at h2

/-- C5 witness at a concrete two-element store. -/
theorem c5_partition_witness : convP ∉ Chat.recentOf [convP, convR] :=
  (c5_partition [convP, convR]).2.2.2.2.2 convP (by decide)

/-- C6: formatting the input three-backticks `js` newline `console.log(1)`
three-backticks yields exactly one code-block node: the code-block scan of
the escaped input produces a single block with language token `js` and
captured code `console.log(1)` between two empty text segments (so there is
no other non-empty output node), the code survives the template's `trim`
unchanged (no surrounding blank lines or whitespace), and the final
formatted output is exactly the rendering of that single block. -/
theorem c6_code_block :
    fenceSplit (escapeHtmlL "```js\nconsole.log(1)```".data) =
      [Seg.text [], Seg.block (some "js".data) "console.log(1)".data, Seg.text []] ∧
    jsTrimL "console.log(1)".data = "console.log(1)".data ∧
    formatMessage "```js\nconsole.log(1)```" =
      ⟨lineBreaksL (codeBlockTemplate (some "js".data) "console.log(1)".data)⟩ := by
  refine ⟨rfl, rfl, ?_⟩
  set_option maxRecDepth 8000 in rfl

/-- C7 counterexample: the formatter escapes HTML-significant characters,
so plain text containing an ampersand (no backticks, no asterisks) is not
returned unchanged; and the formatter is not idempotent on the plain text
`a` newline `b`, because the inserted break marker is itself escaped by a
second application. -/
theorem c7_counterexample :
    formatMessage "&" = "&amp;" ∧ ("&amp;" : String) ≠ "&" ∧
    formatMessage (formatMessage "a\nb") ≠ formatMessage "a\nb" := by
  refine ⟨rfl, by decide, by decide⟩

/-- C7 amended: for input text containing no backticks, no asterisks and no
HTML-escapable characters (ampersand, angle brackets, no-break space), the
formatter returns the same text with each newline converted to the break
marker; it is idempotent on such input when the input additionally contains
no newline (the inserted `<br>` markers are otherwise re-escaped). -/
theorem c7_plain_text_amended (s : String)
    (h : ∀ c ∈ s.data, c ≠ backtickChar ∧ c ≠ '*' ∧ c ≠ '&' ∧ c ≠ '<' ∧
      c ≠ '>' ∧ c ≠ Char.ofNat 160) :
    formatMessage s = ⟨lineBreaksL s.data⟩ ∧
    ((∀ c ∈ s.data, c ≠ '\n') → formatMessage (formatMessage s) = formatMessage s) := by
  have hesc : escapeHtmlL s.data = s.data :=
    escapeHtmlL_eq_self (fun c hc => ⟨(h c hc).2.2.1, (h c hc).2.2.2.1,
      (h c hc).2.2.2.2.1, (h c hc).2.2.2.2.2⟩)
  have hmain : formatMessage s = ⟨lineBreaksL s.data⟩ := by
    unfold formatMessage formatMessageL
    rw [hesc, fenceSplit_text (fun c hc => (h c hc).1)]
    simp only [List.map_cons, List.map_nil, renderSeg, List.flatten_cons,
      List.flatten_nil, List.append_nil]
    unfold inlineCodeL boldL italicL
    rw [inlineCodeF_eq_self (fun c hc => (h c hc).1)]
    rw [boldF_eq_self (fun c hc => (h c hc).2.1)]
    rw [italicF_eq_self (fun c hc => (h c hc).2.1)]
  refine ⟨hmain, fun hn => ?_⟩
  have hid : lineBreaksL s.data = s.data := lineBreaksL_eq_self hn
  have hss : formatMessage s = s := by
    rw [hmain, hid]
  rw [hss]
  exact hss

/-- C7 witness: a line-broken plain text is rendered with the break marker,
and a newline-free plain text is a fixed point of the formatter. -/
theorem c7_plain_text_amended_witness :
    formatMessage "line one\nline two" = ⟨lineBreaksL "line one\nline two".data⟩ ∧
    formatMessage (formatMessage "plain text.") = formatMessage "plain text." :=
  ⟨(c7_plain_text_amended "line one\nline two" (by decide)).1,
   (c7_plain_text_amended "plain text." (by decide)).2 (by decide)⟩

/-- C1: when a turn completes on an active conversation and the message
buffer holds exactly two messages (the first user message plus the first
assistant reply), `updateConversation` sets the title to the first 50
characters of the originating user message with a trailing `...` exactly
when that message is longer than 50 characters; on any other buffer length
(all later turns) the title is left unchanged, so it is set exactly once. -/
theorem c1_title_set_once (st : Chat.State) (c : Conversation)
    (userMessage : String) (aiResponse : Option String) (cid sid nowIso : String)
    (hc : st.currentConversation = some c) :
    (st.messages.length = 2 →
      ∃ c2, (Chat.updateConversation st userMessage aiResponse cid sid nowIso).currentConversation
          = some c2 ∧
        c2.title = userMessage.take 50 ++ (if userMessage.length > 50 then "..." else "")) ∧
    (st.messages.length ≠ 2 →
      ∃ c2, (Chat.updateConversation st userMessage aiResponse cid sid nowIso).currentConversation
          = some c2 ∧
        c2.title = c.title) := by
  unfold Chat.updateConversation
  rw [hc]
  constructor
  · intro h
    simp only [hc, h, if_pos rfl]
    exact ⟨_, rfl, rfl⟩
  · intro h
    simp only [hc, if_neg h]
    exact ⟨_, rfl, rfl⟩

/-- A chat state holding one completed first exchange on an active
conversation, used to witness C1. -/
def stTwoMsgs : Chat.State :=
  { currentConversation := some convR, sessionId := some "s0",
    messages := [{ role := "user", content := "hi", timestamp := "T1" },
                 { role := "ai", content := "hello", timestamp := "T1" }],
    store := [] }

/-- C1 witness: a 60-character user message is truncated to its first 50
characters plus an ellipsis when the buffer holds two messages. -/
theorem c1_title_set_once_witness :
    ∃ c2, (Chat.updateConversation stTwoMsgs
        "qqqqqqqqqqqqqqqqqqqqqqqqqqqqqqqqqqqqqqqqqqqqqqqqqqzzzzzzzzz"
        (some "hello") "cA" "sA" "T2").currentConversation = some c2 ∧
      c2.title = "qqqqqqqqqqqqqqqqqqqqqqqqqqqqqqqqqqqqqqqqqqqqqqqqqqzzzzzzzzz".take 50 ++
        (if ("qqqqqqqqqqqqqqqqqqqqqqqqqqqqqqqqqqqqqqqqqqqqqqqqqqzzzzzzzzz" : String).length > 50
          then "..." else "") :=
  (c1_title_set_once stTwoMsgs convR
    "qqqqqqqqqqqqqqqqqqqqqqqqqqqqqqqqqqqqqqqqqqqqqqqqqqzzzzzzzzz"
    (some "hello") "cA" "sA" "T2" rfl).1 rfl

/-- `updateConversation` (and the `startNewConversation` it may perform)
never touches the append log. -/
theorem updateConversation_appendedLog (st : Chat.State) (u : String) (a : Option String)
    (cid sid nowIso : String) :
    (Chat.updateConversation st u a cid sid nowIso).appendedLog = st.appendedLog := by
  unfold Chat.updateConversation Chat.startNewConversation
  cases hcc : st.currentConversation <;> simp [hcc]

/-- `updateConversation` never touches the gateway call counter. -/
theorem updateConversation_gatewayCalls (st : Chat.State) (u : String) (a : Option String)
    (cid sid nowIso : String) :
    (Chat.updateConversation st u a cid sid nowIso).gatewayCalls = st.gatewayCalls := by
  unfold Chat.updateConversation Chat.startNewConversation
  cases hcc : st.currentConversation <;> simp [hcc]

/-- An initial chat state with an active empty conversation, as after
`startNewConversation`; used by witnesses. -/
def stConv : Chat.State :=
  { currentConversation := some
      { id := "conv_1", title := "New conversation", messages := [],
        created_at := "T0", updated_at := "T0", starred := false },
    sessionId := some "sess_1", messages := [], store := [] }

/-- A gateway stub whose chat call always fails. -/
def gwBoom : String → Option String → Except String Chat.GatewayReply :=
  fun _ _ => .error "boom"

/-- An input of 3001 identical letters, one character over the configured
`CONFIG.MAX_MESSAGE_LENGTH = 3000`. -/
def bigInput : String := ⟨List.replicate 3001 'a'⟩

theorem bigInput_trim : jsTrim bigInput = bigInput := by
  unfold jsTrim bigInput
  rw [jsTrimL_eq_self]
  intro c hc
  rw [List.eq_of_mem_replicate hc]
  rfl

theorem bigInput_ne_empty : jsTrim bigInput ≠ "" := by
  rw [bigInput_trim]
  intro h
  have h2 : bigInput.data = ("" : String).data := by rw [h]
  have h3 := congrArg List.length h2
  rw [show bigInput.data = List.replicate 3001 'a' from rfl, List.length_replicate,
    show ("" : String).data = ([] : List Char) from rfl, List.length_nil] at h3
  exact absurd h3 (by norm_num)

/-- C3 counterexample: an input exceeding the configured maximum message
length of 3000 characters is not rejected by `sendMessage` — the user
message is appended (state change) and the gateway is invoked (network
call), contradicting the claimed `ValidationError` for oversize input. -/
theorem c3_counterexample :
    bigInput.length > 3000 ∧
    (Chat.sendMessage stConv bigInput gwBoom "T1" "cX" "sX").gatewayCalls =
      stConv.gatewayCalls + 1 ∧
    (Chat.sendMessage stConv bigInput gwBoom "T1" "cX" "sX").messages ≠
      stConv.messages := by
  refine ⟨?_, ?_, ?_⟩
  · show bigInput.data.length > 3000
    rw [show bigInput.data = List.replicate 3001 'a' from rfl, List.length_replicate]
    norm_num
  · unfold Chat.sendMessage
    rw [if_neg bigInput_ne_empty]
    rfl
  · unfold Chat.sendMessage
    rw [if_neg bigInput_ne_empty]
    show stConv.messages ++
        [{ role := "user", content := jsTrim bigInput, timestamp := "T1",
           confidence := none, sources := none }] ≠ stConv.messages
    intro h
    have h2 := congrArg List.length h
    rw [List.length_append] at h2
    simp only [List.length_cons, List.length_nil] at h2
    omega

/-- C3 amended: `sendMessage` silently returns — no error object, no state
change, no network call — exactly when the input is empty after trimming;
it performs no maximum-length check at all (oversize enforcement exists
only in the input handler, which disables the send button), and for any
nonempty trimmed input of any length it appends the user message and
invokes the gateway chat call exactly once. -/
theorem c3_validation_amended (st : Chat.State) (input : String)
    (gw : String → Option String → Except String Chat.GatewayReply)
    (nowIso cid sid : String) :
    (jsTrim input = "" → Chat.sendMessage st input gw nowIso cid sid = st) ∧
    (jsTrim input ≠ "" →
      (Chat.sendMessage st input gw nowIso cid sid).gatewayCalls = st.gatewayCalls + 1 ∧
      ∃ rest, (Chat.sendMessage st input gw nowIso cid sid).appendedLog =
        st.appendedLog ++
          { role := "user", content := jsTrim input, timestamp := nowIso } :: rest) := by
  constructor
  · intro h
    unfold Chat.sendMessage
    rw [if_pos h]
  · intro h
    unfold Chat.sendMessage
    rw [if_neg h]
    cases hgw : gw (jsTrim input) st.sessionId with
    | error e => exact ⟨rfl, [], by simp [Chat.addMessage]⟩
    | ok reply =>
      cases hresp : reply.response with
      | none =>
        refine ⟨?_, [], ?_⟩
        · simp [hresp, Chat.addMessage, updateConversation_gatewayCalls]
        · simp [hresp, Chat.addMessage, updateConversation_appendedLog]
      | some r =>
        refine ⟨?_, [{ role := "ai", content := r, timestamp := nowIso, confidence := reply.confidence, sources := reply.sources }], ?_⟩
        · simp [hresp, Chat.addMessage, updateConversation_gatewayCalls]
        · simp [hresp, Chat.addMessage, updateConversation_appendedLog]

/-- C3 amended witness: blank input is a no-op; the oversize 3001-character
input goes through to the gateway with the user message appended. -/
theorem c3_validation_amended_witness :
    Chat.sendMessage stConv "   " gwBoom "T1" "cX" "sX" = stConv ∧
    (Chat.sendMessage stConv bigInput gwBoom "T1" "cX" "sX").gatewayCalls =
      stConv.gatewayCalls + 1 :=
  ⟨(c3_validation_amended stConv "   " gwBoom "T1" "cX" "sX").1 rfl,
   ((c3_validation_amended stConv bigInput gwBoom "T1" "cX" "sX").2
      bigInput_ne_empty).1⟩

/-- C4: for every input that passes the emptiness check, if the gateway
chat call fails then the optimistically appended user message is retained
(the buffer is exactly the old buffer plus that user message, so it still
ends with it and no assistant message was appended), the error is surfaced
as a user-visible toast, the gateway was called exactly once (no automatic
retry), and nothing was persisted. -/
theorem c4_network_failure (st : Chat.State) (input : String) (e : String)
    (gw : String → Option String → Except String Chat.GatewayReply)
    (nowIso cid sid : String)
    (hne : jsTrim input ≠ "")
    (hgw : gw (jsTrim input) st.sessionId = .error e) :
    (Chat.sendMessage st input gw nowIso cid sid).messages =
      st.messages ++ [{ role := "user", content := jsTrim input, timestamp := nowIso }] ∧
    (Chat.sendMessage st input gw nowIso cid sid).gatewayCalls = st.gatewayCalls + 1 ∧
    (Chat.sendMessage st input gw nowIso cid sid).toasts =
      st.toasts ++ [("Error", if e = "" then "Failed to send message" else e, "error")] ∧
    (Chat.sendMessage st input gw nowIso cid sid).currentConversation =
      st.currentConversation ∧
    (Chat.sendMessage st input gw nowIso cid sid).store = st.store := by
  unfold Chat.sendMessage
  rw [if_neg hne, hgw]
  exact ⟨rfl, rfl, rfl, rfl, rfl⟩

/-- C4 witness at a concrete failing gateway. -/
theorem c4_network_failure_witness :
    (Chat.sendMessage stConv "hello" gwBoom "T1" "cX" "sX").messages =
      stConv.messages ++ [{ role := "user", content := jsTrim "hello", timestamp := "T1" }] ∧
    (Chat.sendMessage stConv "hello" gwBoom "T1" "cX" "sX").gatewayCalls =
      stConv.gatewayCalls + 1 ∧
    (Chat.sendMessage stConv "hello" gwBoom "T1" "cX" "sX").toasts =
      stConv.toasts ++
        [("Error", if ("boom" : String) = "" then "Failed to send message" else "boom",
          "error")] ∧
    (Chat.sendMessage stConv "hello" gwBoom "T1" "cX" "sX").currentConversation =
      stConv.currentConversation ∧
    (Chat.sendMessage stConv "hello" gwBoom "T1" "cX" "sX").store = stConv.store :=
  c4_network_failure stConv "hello" "boom" gwBoom "T1" "cX" "sX" (by decide) rfl

/-- An auth state holding a stored token, used by C9. -/
def authSt0 : AuthState := { token := some "tok", user := none }

/-- C9 counterexample: a decoded payload with `expiresAt = 0` (the epoch,
strictly before the current time 5) does not trigger the clearing path,
because the code guards the expiry check with the truthiness of `exp` and
`0` is falsy: the stored token is kept, local data is not cleared, and the
UI update runs. -/
theorem c9_counterexample :
    (0 : Int) * 1000 < 5 ∧
    (Auth.loadUser authSt0 (.ok { exp := some 0 }) 5).token = some "tok" ∧
    (Auth.loadUser authSt0 (.ok { exp := some 0 }) 5).storageCleared = false ∧
    (Auth.loadUser authSt0 (.ok { exp := some 0 }) 5).uiUpdated = true := by
  refine ⟨by norm_num, rfl, rfl, rfl⟩

/-- C9 amended: for a stored token whose decoded payload has a nonzero
(truthy) `expiresAt` strictly before the current time, `loadUser` removes
the stored token, nulls the user, clears local session data and redirects
to the auth entry view (`Unauthenticated`) without running any UI update;
a token that fails to decode triggers exactly the same clearing.  (A
payload with `exp = 0` is treated as having no expiry and is exempt, per
the counterexample.) -/
theorem c9_expired_token_amended (st : AuthState) (t : String) (p : AuthPayload)
    (e : Int) (nowMs : Int) (htok : st.token = some t) :
    (p.exp = some e → e ≠ 0 → e * 1000 < nowMs →
      (Auth.loadUser st (.ok p) nowMs).token = none ∧
      (Auth.loadUser st (.ok p) nowMs).user = none ∧
      (Auth.loadUser st (.ok p) nowMs).storageCleared = true ∧
      (Auth.loadUser st (.ok p) nowMs).redirectedToAuth = true ∧
      (Auth.loadUser st (.ok p) nowMs).uiUpdated = st.uiUpdated) ∧
    ((Auth.loadUser st (.error ()) nowMs).token = none ∧
      (Auth.loadUser st (.error ()) nowMs).user = none ∧
      (Auth.loadUser st (.error ()) nowMs).storageCleared = true ∧
      (Auth.loadUser st (.error ()) nowMs).redirectedToAuth = true ∧
      (Auth.loadUser st (.error ()) nowMs).uiUpdated = st.uiUpdated) := by
  constructor
  · intro hexp hne hlt
    unfold Auth.loadUser
    rw [htok]
    dsimp only
    rw [hexp]
    dsimp only
    rw [if_pos ⟨hne, by omega⟩]
    exact ⟨rfl, rfl, rfl, rfl, rfl⟩
  · unfold Auth.loadUser
    rw [htok]
    exact ⟨rfl, rfl, rfl, rfl, rfl⟩

/-- C9 amended witness: a token expired one second before the current
time is cleared, and an undecodable token is cleared the same way. -/
theorem c9_expired_token_amended_witness :
    (Auth.loadUser authSt0 (.ok { exp := some 1 }) 2000).token = none ∧
    (Auth.loadUser authSt0 (.error ()) 2000).storageCleared = true :=
  ⟨((c9_expired_token_amended authSt0 "tok" { exp := some 1 } 1 2000 rfl).1
      rfl (by norm_num) (by norm_num)).1,
   (c9_expired_token_amended authSt0 "tok" { exp := some 1 } 1 2000 rfl).2.2.2.1⟩

/-- C8 counterexample: a persisted collection holding one readable entry
followed by a corrupt tail (a trailing comma) makes `getConversations`
propagate the parse failure — no conversations at all are returned, the
readable entry included — whereas the same collection without the corrupt
tail is returned in full.  A single corrupt record therefore does block
access to the rest of the history. -/
theorem c8_counterexample :
    (API.getConversationsRaw (some "[\x7b\"id\":\"a\"\x7d,]")).isOk = false ∧
    API.getConversationsRaw (some "[\x7b\"id\":\"a\"\x7d]") =
      .ok (Json.arr [Json.obj [("id".data, Json.str "a".data)]]) := by
  exact ⟨rfl, rfl⟩

/-- C8 amended: `getConversations` parses the persisted collection as one
JSON unit: a missing key yields the empty list, a well-formed collection is
returned whole (no per-entry validation or dropping), and a malformed
collection propagates the parse error unchanged — unreadable entries are
never skipped. -/
theorem c8_storage_propagates (s : String) (e : String) :
    (jsonParse s = .error e → API.getConversationsRaw (some s) = .error e) ∧
    (∀ v, jsonParse s = .ok v → API.getConversationsRaw (some s) = .ok v) ∧
    API.getConversationsRaw none = .ok (Json.arr []) := by
  refine ⟨fun h => ?_, fun v h => ?_, rfl⟩
  · simp [API.getConversationsRaw, h]
  · simp [API.getConversationsRaw, h]

/-- C8 amended witness: the corrupt collection's parse error is propagated
verbatim by `getConversations`. -/
theorem c8_storage_propagates_witness :
    API.getConversationsRaw (some "[\x7b\"id\":\"a\"\x7d,]") =
      .error "unexpected token" :=
  (c8_storage_propagates "[\x7b\"id\":\"a\"\x7d,]" "unexpected token").1 rfl

/-- The numeric value of a decimal digit character. -/
def digitVal (c : Char) : Nat :=
  if c = '0' then 0 else if c = '1' then 1 else if c = '2' then 2
  else if c = '3' then 3 else if c = '4' then 4 else if c = '5' then 5
  else if c = '6' then 6 else if c = '7' then 7 else if c = '8' then 8 else 9

/-- Reading a digit string back as a number. -/
def foldVal (l : List Char) : Nat := l.foldl (fun a c => 10 * a + digitVal c) 0

theorem digitVal_digitChar {m : Nat} (h : m < 10) :
    digitVal (API.digitChar m) = m := by
  interval_cases m <;> rfl

theorem digitChar_ne_underscore (m : Nat) : API.digitChar m ≠ '_' := by
  unfold API.digitChar
  split <;> decide

theorem foldVal_append_digit (xs : List Char) (d : Char) :
    foldVal (xs ++ [d]) = 10 * foldVal xs + digitVal d := by
  unfold foldVal
  rw [List.foldl_append]
  rfl

theorem digitsF_val : ∀ (fuel n : Nat), n ≤ fuel →
    foldVal (API.digitsF fuel n) = n := by
  intro fuel
  induction fuel with
  | zero =>
    intro n hn
    have h0 : n = 0 := Nat.le_zero.mp hn
    subst h0
    rfl
  | succ f ih =>
    intro n hn
    rw [API.digitsF]
    split
    · rename_i h10
      show foldVal [API.digitChar n] = n
      unfold foldVal
      simp [List.foldl_cons, digitVal_digitChar h10]
    · rename_i h10
      rw [foldVal_append_digit]
      have hdiv : n / 10 ≤ f := by
        have hlt : n / 10 < n := Nat.div_lt_self (by omega) (by omega)
        omega
      rw [ih (n / 10) hdiv, digitVal_digitChar (Nat.mod_lt n (by omega))]
      omega

theorem digitsOf_val (n : Nat) : foldVal (API.digitsOf n) = n :=
  digitsF_val n n (Nat.le_refl n)

theorem digitsOf_inj {n1 n2 : Nat} (h : API.digitsOf n1 = API.digitsOf n2) :
    n1 = n2 := by
  have := congrArg foldVal h
  rwa [digitsOf_val, digitsOf_val] at this

theorem digitsF_no_underscore : ∀ (fuel n : Nat) (c : Char),
    c ∈ API.digitsF fuel n → c ≠ '_' := by
  intro fuel
  induction fuel with
  | zero =>
    intro n c hc
    rw [API.digitsF] at hc
    simp only [List.mem_singleton] at hc
    subst hc
    exact digitChar_ne_underscore n
  | succ f ih =>
    intro n c hc
    rw [API.digitsF] at hc
    split at hc
    · simp only [List.mem_singleton] at hc
      subst hc
      exact digitChar_ne_underscore n
    · rw [List.mem_append] at hc
      cases hc with
      | inl h1 => exact ih (n / 10) c h1
      | inr h2 =>
        simp only [List.mem_singleton] at h2
        subst h2
        exact digitChar_ne_underscore (n % 10)

/-- Splitting a concatenation at a separator that the left parts avoid. -/
theorem underscore_split : ∀ (d1 d2 r1 r2 : List Char),
    (∀ c ∈ d1, c ≠ '_') → (∀ c ∈ d2, c ≠ '_') →
    d1 ++ '_' :: r1 = d2 ++ '_' :: r2 → d1 = d2 ∧ r1 = r2 := by
  intro d1
  induction d1 with
  | nil =>
    intro d2 r1 r2 h1 h2 heq
    cases d2 with
    | nil => simpa using heq
    | cons c2 t2 =>
      simp only [List.nil_append, List.cons_append, List.cons.injEq] at heq
      exact absurd heq.1.symm (h2 c2 (by simp))
  | cons c1 t1 ih =>
    intro d2 r1 r2 h1 h2 heq
    cases d2 with
    | nil =>
      simp only [List.nil_append, List.cons_append, List.cons.injEq] at heq
      exact absurd heq.1 (h1 c1 (by simp))
    | cons c2 t2 =>
      simp only [List.cons_append, List.cons.injEq] at heq
      obtain ⟨hc, ht⟩ := heq
      obtain ⟨ha, hb⟩ := ih t2 r1 r2 (fun c hc => h1 c (by simp [hc]))
        (fun c hc => h2 c (by simp [hc])) ht
      exact ⟨by rw [hc, ha], hb⟩

theorem generateSessionId_inj {n1 n2 : Nat} {r1 r2 : String}
    (h : API.generateSessionId n1 r1 = API.generateSessionId n2 r2) :
    n1 = n2 ∧ r1 = r2 := by
  unfold API.generateSessionId at h
  have hd := congrArg String.data h
  simp only [String.data_append] at hd
  rw [List.append_assoc, List.append_assoc, List.append_assoc, List.append_assoc] at hd
  have hd2 := (List.append_inj hd rfl).2
  simp only [show (⟨API.digitsOf n1⟩ : String).data = API.digitsOf n1 from rfl,
    show (⟨API.digitsOf n2⟩ : String).data = API.digitsOf n2 from rfl,
    show ("_" : String).data = ['_'] from rfl] at hd2
  simp only [List.cons_append, List.nil_append] at hd2
  have := underscore_split (API.digitsOf n1) (API.digitsOf n2) r1.data r2.data
    (fun c hc => digitsF_no_underscore n1 n1 c hc)
    (fun c hc => digitsF_no_underscore n2 n2 c hc) hd2
  exact ⟨digitsOf_inj this.1, String.ext this.2⟩

/-- C10: with a null session id, the API-level `sendMessage` sends a
freshly generated `session_<timestamp>_<random>` id for that single request
and stores nothing on the client, so two such calls made with different
timestamp/random draws carry distinct session ids rather than reusing one;
a caller-supplied (non-empty) session id is passed through unchanged, so
per-conversation stability holds only when the caller supplies it. -/
theorem c10_session_id (st : API.ApiState) (message : String)
    (now1 now2 : Nat) (rand1 rand2 : String) :
    (API.sendMessageCall st message none now1 rand1).1.session_id =
      API.generateSessionId now1 rand1 ∧
    (API.sendMessageCall st message none now1 rand1).2 = st ∧
    (now1 ≠ now2 ∨ rand1 ≠ rand2 →
      API.generateSessionId now1 rand1 ≠ API.generateSessionId now2 rand2) ∧
    (∀ s2 : String, s2 ≠ "" →
      (API.sendMessageCall st message (some s2) now1 rand1).1.session_id = s2) := by
  refine ⟨rfl, rfl, fun hne heq => ?_, fun s2 hs2 => ?_⟩
  · obtain ⟨h1, h2⟩ := generateSessionId_inj heq
    cases hne with
    | inl h => exact h h1
    | inr h => exact h h2
  · show API.jsOrStr (some s2) _ = s2
    unfold API.jsOrStr
    dsimp only
    rw [if_neg hs2]

/-- C10 witness: distinct timestamps give distinct generated ids, and a
caller-supplied id is reused verbatim. -/
theorem c10_session_id_witness :
    API.generateSessionId 1700 "ab" ≠ API.generateSessionId 1701 "ab" ∧
    (API.sendMessageCall { token := none } "m" (some "sess_9") 1700 "ab").1.session_id =
      "sess_9" :=
  ⟨(c10_session_id { token := none } "m" 1700 1701 "ab" "ab").2.2.1
      (Or.inl (by norm_num)),
   (c10_session_id { token := none } "m" 1700 1701 "ab" "ab").2.2.2 "sess_9"
      (by decide)⟩

/-- If a store with duplicate-free ids holds `cid` at index `i`, the
`findIndex` scan of `saveConversation` locates exactly that index. -/
theorem findIdx_of_get : ∀ (cs : List Conversation) (cid : String) (i j : Nat)
    (hi : i < cs.length), (cs.map (fun c => c.id)).Nodup →
    (cs.get ⟨i, hi⟩).id = cid →
    cs.findIdx? (fun c => c.id == cid) j = some (j + i) := by
  intro cs
  induction cs with
  | nil => intro cid i j hi; simp at hi
  | cons x t ih =>
    intro cid i j hi hnd hget
    rw [List.findIdx?_cons]
    cases i with
    | zero =>
      have hx : x.id = cid := hget
      rw [if_pos (by simp [hx])]
      simp
    | succ k =>
      rw [List.map_cons] at hnd
      have hnd2 := List.nodup_cons.mp hnd
      have hki : k < t.length := by simpa using hi
      have hget2 : (t.get ⟨k, hki⟩).id = cid := hget
      have hmem : cid ∈ t.map (fun c => c.id) := by
        rw [← hget2]
        exact List.mem_map_of_mem _ (List.get_mem t k hki)
      have hxne : x.id ≠ cid := fun he => hnd2.1 (he ▸ hmem)
      rw [if_neg (by simp [hxne])]
      rw [ih cid k (j + 1) hki hnd2.2 hget2]
      congr 1
      omega

/-- Setting an index of a list to the value already stored there is the
identity. -/
theorem set_getElem_self_eq {α : Type _} : ∀ (l : List α) (i : Nat)
    (hi : i < l.length), l.set i l[i] = l := by
  intro l
  induction l with
  | nil => intro i hi; simp at hi
  | cons x t ih =>
    intro i hi
    cases i with
    | zero => rfl
    | succ k =>
      have hki : k < t.length := by simpa using hi
      show x :: t.set k t[k] = x :: t
      rw [ih k hki]

/-- Replacing, in a store with duplicate-free ids, the entry holding
`cv.id` by `cv` makes the id lookup return `cv`. -/
theorem find_set_of_get : ∀ (cs : List Conversation) (cv : Conversation) (i : Nat)
    (hi : i < cs.length), (cs.map (fun c => c.id)).Nodup →
    (cs.get ⟨i, hi⟩).id = cv.id →
    (cs.set i cv).find? (fun c => c.id == cv.id) = some cv := by
  intro cs
  induction cs with
  | nil => intro cv i hi; simp at hi
  | cons x t ih =>
    intro cv i hi hnd hget
    cases i with
    | zero =>
      show (cv :: t).find? (fun c => c.id == cv.id) = some cv
      exact List.find?_cons_of_pos _ (by simp)
    | succ k =>
      rw [List.map_cons] at hnd
      have hnd2 := List.nodup_cons.mp hnd
      have hki : k < t.length := by simpa using hi
      have hget2 : (t.get ⟨k, hki⟩).id = cv.id := hget
      have hmem : cv.id ∈ t.map (fun c => c.id) := by
        rw [← hget2]
        exact List.mem_map_of_mem _ (List.get_mem t k hki)
      have hxne : x.id ≠ cv.id := fun he => hnd2.1 (he ▸ hmem)
      show (x :: t.set k cv).find? (fun c => c.id == cv.id) = some cv
      rw [List.find?_cons_of_neg _ (by simp [hxne])]
      exact ih cv k hki hnd2.2 hget2

/-- Conversations with duplicate ids (a store state violating the claimed
invariant) and a fresh conversation, used by the C2 counterexample. -/
def convA1 : Conversation :=
  { id := "a", title := "first copy", messages := [], created_at := "T0",
    updated_at := "T0", starred := false }

/-- Second stored entry sharing the id `a`. -/
def convA2 : Conversation :=
  { id := "a", title := "second copy", messages := [], created_at := "T0",
    updated_at := "T0", starred := false }

/-- A conversation with the fresh id `b`. -/
def convB : Conversation :=
  { id := "b", title := "fresh", messages := [], created_at := "T1",
    updated_at := "T1", starred := false }

/-- C2 counterexample: the claim quantifies over every store state, but on
a store already holding two entries with the same id, `saveConversation` of
a fresh id prepends and leaves the duplicate pair untouched, so a duplicate
id does exist in the store afterwards. -/
theorem c2_counterexample :
    API.saveConversation convB [convA1, convA2] = [convB, convA1, convA2] ∧
    ¬ ((API.saveConversation convB [convA1, convA2]).map (fun c => c.id)).Nodup := by
  exact ⟨rfl, by decide⟩

/-- C2 amended: on a store whose ids are duplicate-free (the invariant the
store maintains), `saveConversation` upserts by id: if index `i` holds the
saved id the store is rewritten with exactly position `i` replaced (and the
entry count unchanged); if no entry holds the id the conversation is
prepended; in both cases the resulting ids are duplicate-free and looking
the id up afterwards returns precisely the saved entity. -/
theorem c2_save_upsert (conversation : Conversation) (cs : List Conversation)
    (hnd : (cs.map (fun c => c.id)).Nodup) :
    (∀ (i : Nat) (hi : i < cs.length), (cs.get ⟨i, hi⟩).id = conversation.id →
      API.saveConversation conversation cs = cs.set i conversation ∧
      (API.saveConversation conversation cs).length = cs.length) ∧
    ((∀ x ∈ cs, x.id ≠ conversation.id) →
      API.saveConversation conversation cs = conversation :: cs) ∧
    ((API.saveConversation conversation cs).map (fun c => c.id)).Nodup ∧
    (API.saveConversation conversation cs).find? (fun c => c.id == conversation.id) =
      some conversation := by
  have hrepl : ∀ (i : Nat) (hi : i < cs.length), (cs.get ⟨i, hi⟩).id = conversation.id →
      API.saveConversation conversation cs = cs.set i conversation := by
    intro i hi hget
    unfold API.saveConversation
    rw [findIdx_of_get cs conversation.id i 0 hi hnd hget]
    simp only [Nat.zero_add]
  refine ⟨fun i hi hget => ⟨hrepl i hi hget, ?_⟩, fun hall => ?_, ?_, ?_⟩
  · rw [hrepl i hi hget]
    exact List.length_set cs i conversation
  · unfold API.saveConversation
    rw [List.findIdx?_eq_none_iff.mpr (fun x hx => by simp [hall x hx])]
  · by_cases hex : ∃ x ∈ cs, x.id = conversation.id
    · obtain ⟨x, hx, hxid⟩ := hex
      obtain ⟨i, hgi⟩ := List.mem_iff_get.mp hx
      have hget : (cs.get i).id = conversation.id := by rw [hgi, hxid]
      rw [hrepl i.1 i.2 hget, List.map_set]
      have hval : conversation.id = (cs.map (fun c => c.id))[i.1] := by
        rw [List.getElem_map]
        rw [← hget]
        rfl
      rw [hval, set_getElem_self_eq]
      exact hnd
    · push_neg at hex
      unfold API.saveConversation
      rw [List.findIdx?_eq_none_iff.mpr (fun x hx => by simp [hex x hx])]
      rw [List.map_cons]
      refine List.nodup_cons.mpr ⟨?_, hnd⟩
      intro hmem
      obtain ⟨x, hx, hxe⟩ := List.mem_map.mp hmem
      exact hex x hx hxe
  · by_cases hex : ∃ x ∈ cs, x.id = conversation.id
    · obtain ⟨x, hx, hxid⟩ := hex
      obtain ⟨i, hgi⟩ := List.mem_iff_get.mp hx
      have hget : (cs.get i).id = conversation.id := by rw [hgi, hxid]
      rw [hrepl i.1 i.2 hget]
      exact find_set_of_get cs conversation i.1 i.2 hnd hget
    · push_neg at hex
      unfold API.saveConversation
      rw [List.findIdx?_eq_none_iff.mpr (fun x hx => by simp [hex x hx])]
      exact List.find?_cons_of_pos _ (by simp)

/-- C2 amended witness: saving a fresh id on a duplicate-free one-element
store prepends it, and the subsequent id lookup returns the saved entity. -/
theorem c2_save_upsert_witness :
    API.saveConversation convB [convR] = [convB, convR] ∧
    (API.saveConversation convB [convR]).find? (fun c => c.id == convB.id) =
      some convB :=
  ⟨(c2_save_upsert convB [convR] (by decide)).2.1 (by decide),
   (c2_save_upsert convB [convR] (by decide)).2.2.2⟩
